import Mathlib

/-!
# SimpleRAG — shallow embedding and verification

A shallow embedding of the SimpleRAG repository (Flask RAG backend) in Lean 4,
covering the parts of the code the specification's claims are about:

* the per-session chat history store and the two answer endpoints
  (`query` at `src/app.py:145-211`, `stream_query` at `src/app.py:213-306`,
  `get_history` at `src/app.py:308-315`);
* the QA chain with its single `ConversationBufferMemory`
  (`src/qa_chain.py:12-53`);
* file-change tracking (`src/file_tracking.py`);
* per-file document loading (`src/file_loaders.py:38-58`);
* the vector-store bootstrap/upsert logic (`src/vector_store.py:12-45`).

External collaborators (the Ollama LLM, the embedding service, the Chroma
index, the filesystem) are modelled as parameters or as their spec-level
black-box contracts, as the specification's §1 prescribes.
-/

namespace SimpleRAG

/-- A retrieved or loaded document: `page_content` plus the metadata fields the
endpoints read (`metadata.get("source_file")`, `metadata["page"]`).  The
`file_path` metadata written by the loaders is elided (no claim reads it). -/
structure Doc where
  page_content : String
  source_file : Option String
  page : Option Nat
deriving DecidableEq, Repr

/-- One entry of the sources list built by both endpoints:
`{"file": metadata.get("source_file", "未知文件")}` plus the page when present
(`src/app.py:189-195` and `src/app.py:259-265`). -/
structure SourceInfo where
  file : String
  page : Option Nat
deriving DecidableEq, Repr

/-- `source_info` mirrors the per-document sources construction of both
endpoints: the file defaults to `"未知文件"`, the page is kept if present. -/
def source_info (d : Doc) : SourceInfo :=
  { file := d.source_file.getD "未知文件", page := d.page }

/-- One chat message, `{"role": ..., "content": ...}` as stored in
`chat_history_store` (`src/app.py:42`). -/
structure Message where
  role : String
  content : String
deriving DecidableEq, Repr

/-- A session's history: the list stored under one key of `chat_history_store`. -/
abbrev Session := List Message

/-- `chat_history_store` (`src/app.py:42`): a Python dict from session id to
message list, modelled as an insertion-ordered association list. -/
abbrev ChatHistoryStore := List (String × Session)

/-- First-match association lookup, modelling Python dict indexing /
`in` membership tests. -/
def lookupA {α : Type} : List (String × α) → String → Option α
  | [], _ => none
  | (k, v) :: rest, key => if k = key then some v else lookupA rest key

/-- Association update, modelling Python dict assignment `d[k] = v`:
replaces in place when the key exists, appends otherwise (insertion order
is preserved, as for Python dicts). -/
def setA {α : Type} : List (String × α) → String → α → List (String × α)
  | [], key, v => [(key, v)]
  | (k, w) :: rest, key, v =>
    if k = key then (k, v) :: rest else (k, w) :: setA rest key v

/-- `chat_history_store.get(session_id, [])`, and equally the value of
`chat_history_store[session_id]` right after the `if session_id not in
chat_history_store: chat_history_store[session_id] = []` idiom used by both
endpoints (`src/app.py:170-171`, `src/app.py:237-238`). -/
def storeGet (store : ChatHistoryStore) (session_id : String) : Session :=
  (lookupA store session_id).getD []

/-- The `GET /api/history/<session_id>` endpoint (`src/app.py:308-315`):
returns `chat_history_store.get(session_id, [])`. -/
def get_history (store : ChatHistoryStore) (session_id : String) : Session :=
  storeGet store session_id

/-- The history-length cap applied after each completed round-trip
(`src/app.py:184-186` and `src/app.py:287-289`):
`if len(h) > 20: h = h[-20:]`.  Python's `h[-20:]` for `len(h) > 20` is
`h.drop (h.length - 20)`. -/
def capHistory (h : Session) : Session :=
  if h.length > 20 then h.drop (h.length - 20) else h

/-- The history rendering loop of `stream_query` (`src/app.py:250-254`):
consecutive positional pairs of messages are rendered as one
`用户:`/`助手:` block; a trailing unpaired message is skipped
(`if i+1 < len(history)`). -/
def renderPairs : List Message → String
  | m1 :: m2 :: rest =>
    "用户: " ++ m1.content ++ "\n" ++ "助手: " ++ m2.content ++ "\n\n" ++ renderPairs rest
  | _ => ""

/-- `"\n\n".join(doc.page_content for doc in docs)` (`src/app.py:246`). -/
def contextOf (docs : List Doc) : String :=
  String.intercalate "\n\n" (docs.map Doc.page_content)

/-- The prompt template of `src/app.py:102-113`, instantiated with
`context`, `chat_history` and `question` as `PromptTemplate.format` does. -/
def format_prompt (context chat_history question : String) : String :=
  "使用以下上下文和对话历史来回答用户的问题。\n    如果你不确定答案，请基于上下文信息提供你认为最合理的回答，不要编造不在上下文中的信息。\n\n    上下文信息:\n    " ++
    context ++ "\n    \n    对话历史:\n    " ++ chat_history ++
    "\n    \n    用户问题: " ++ question ++ "\n    \n    请提供详细回答:"

/-- Outcome of one call to the external generation service in streaming mode
(spec §6: an ordered stream of text fragments): either the full fragment list
(the stream completed), or the fragments emitted before the service raised. -/
inductive GenOutcome
  | ok (chunks : List String)
  | fail (emitted : List String)
deriving DecidableEq, Repr

/-- One server-sent event of the streaming protocol (`src/app.py:268,282,292`):
`{type: "sources"}`, `{type: "token"}` or `{type: "end"}`. -/
inductive Event
  | sources (sources : List SourceInfo)
  | token (token : String)
  | endEvent
deriving DecidableEq, Repr

/-- What `POST /api/stream` produces, as seen by the consumer:
either the JSON error response (no SSE stream started, or the pre-stream
`except` branch fired), or an SSE stream — completed, or cut off by an
exception raised inside the `generate()` generator. -/
inductive StreamOutcome
  | errorResponse (msg : String)
  | streamOk (events : List Event)
  | streamAborted (events : List Event)
deriving DecidableEq, Repr

/-- The `history` list `stream_query` renders (`src/app.py:247`): the session
content after appending the question, minus the just-appended question
(`chat_history_store[session_id][:-1]`). -/
def stream_history_input (store : ChatHistoryStore) (session_id question : String) :
    List Message :=
  (storeGet (setA store session_id
      (storeGet store session_id ++ [⟨"user", question⟩])) session_id).dropLast

/-- The full prompt the streaming chain pipes into the LLM
(`src/app.py:271-276`): template over the retrieved context, the rendered
history text and the question. -/
def stream_prompt (docs : List Doc) (store : ChatHistoryStore)
    (session_id question : String) : String :=
  format_prompt (contextOf docs) (renderPairs (stream_history_input store session_id question))
    question

/-- `POST /api/stream` (`src/app.py:213-306`).

Parameters standing for the external services:
* `retrOut`: result of `retriever.invoke(question)` — `none` models the call
  raising inside the `try` block (then the `except` branch pops the
  just-appended question);
* `gen`: the streaming generation service applied to the full prompt.

Faithfulness note on the mid-stream failure path: the `try/except` of
`stream_query` encloses only the construction of the generator and of the
`Response` object.  The body of `generate()` runs lazily, while the WSGI
layer iterates the response — after `stream_query` has already returned — so
an exception raised by `chain.stream` mid-stream propagates to the response
consumer: the `except` branch at `src/app.py:299-302` never executes, no
message is popped, the assistant append and the `end` event at
`src/app.py:285-292` are skipped. -/
def stream_query (retrOut : Option (List Doc)) (gen : String → GenOutcome)
    (store : ChatHistoryStore) (session_id question : String) :
    StreamOutcome × ChatHistoryStore :=
  if question = "" then (.errorResponse "问题不能为空", store)
  else
    let store1 := setA store session_id
      (storeGet store session_id ++ [⟨"user", question⟩])
    match retrOut with
    | none =>
      (.errorResponse "流式查询处理错误",
       setA store1 session_id (storeGet store1 session_id).dropLast)
    | some docs =>
      let sources := docs.map source_info
      match gen (stream_prompt docs store session_id question) with
      | .ok chunks =>
        let answer := chunks.foldl (· ++ ·) ""
        let sess := storeGet store1 session_id ++ [⟨"assistant", answer⟩]
        (.streamOk (Event.sources sources :: chunks.map Event.token ++ [Event.endEvent]),
         setA store1 session_id (capHistory sess))
      | .fail emitted =>
        (.streamAborted (Event.sources sources :: emitted.map Event.token), store1)

/-- The process state touched by the buffered endpoint: the per-session
`chat_history_store` plus the message list held by the one
`ConversationBufferMemory` inside the global `qa_chain`
(`src/qa_chain.py:18-22` — created once, shared by every call of
`POST /api/query` regardless of session id). -/
structure AppState where
  store : ChatHistoryStore
  qaMemory : List Message
deriving DecidableEq, Repr

/-- Result of `POST /api/query`: the success JSON (answer plus formatted
sources) or an error JSON. -/
inductive QueryResult
  | success (answer : String) (sources : List SourceInfo)
  | error (msg : String)
deriving DecidableEq, Repr

/-- `POST /api/query` (`src/app.py:145-211`), the buffered endpoint.

`gen` stands for `qa_chain.invoke`'s externals: given the question and the
chat history the chain loads from its `ConversationBufferMemory`, it returns
the answer and the source documents, or `none` when the chain raises (then
the `except` branch pops the just-appended question).  On success the
`ConversationalRetrievalChain` saves the turn into its memory
(`save_context` appends the user question and the assistant answer), and the
endpoint appends the assistant message to the session and applies the cap
(`src/app.py:182-186`).  Note the history handed to the chain is the chain's
own global memory — `chat_history_store[session_id]` is never passed to
`qa_chain.invoke` (`src/app.py:177`). -/
def query (gen : String → List Message → Option (String × List Doc))
    (st : AppState) (session_id question : String) : QueryResult × AppState :=
  if question = "" then (.error "问题不能为空", st)
  else
    let store1 := setA st.store session_id
      (storeGet st.store session_id ++ [⟨"user", question⟩])
    match gen question st.qaMemory with
    | none =>
      (.error "查询处理错误",
       ⟨setA store1 session_id (storeGet store1 session_id).dropLast, st.qaMemory⟩)
    | some (answer, source_docs) =>
      let sess := storeGet store1 session_id ++ [⟨"assistant", answer⟩]
      (.success answer (source_docs.map source_info),
       ⟨setA store1 session_id (capHistory sess),
        st.qaMemory ++ [⟨"user", question⟩, ⟨"assistant", answer⟩]⟩)

/-- One successful question/answer round-trip against the two endpoints, used
to state the session-cap invariant over call sequences: a buffered call whose
generation service returns `answer` (with no source documents), or a
streaming call whose service streams `chunks` to completion. -/
inductive CallDesc
  | buffered (session_id question answer : String)
  | streaming (session_id question : String) (docs : List Doc) (chunks : List String)
deriving DecidableEq, Repr

/-- Execute one round-trip through the corresponding endpoint and keep the
resulting process state. -/
def runCall (st : AppState) : CallDesc → AppState
  | .buffered sid q ans => (query (fun _ _ => some (ans, [])) st sid q).2
  | .streaming sid q docs chunks =>
    { st with store := (stream_query (some docs) (fun _ => .ok chunks) st.store sid q).2 }

/-- Execute a sequence of round-trips starting from a given process state. -/
def runCalls (st : AppState) (calls : List CallDesc) : AppState :=
  calls.foldl runCall st

/-- A stubbed buffered generation service in the style the spec's §8 test
properties use: it answers according to whether the chat history handed to
the chain is empty, which makes any dependence of the answer on that history
observable. -/
def stubGen : String → List Message → Option (String × List Doc) :=
  fun _ history => some (if history.isEmpty then "empty" else "nonempty", [])

/-! ## File tracking (`src/file_tracking.py`) -/

/-- One file found by the extension-filtered `glob` walk of the watched
directory (`src/file_tracking.py:59-61`), together with the outcome of
reading it.  `path` is the file's relative path (the watched-directory prefix
of the glob path is elided, so `os.path.relpath` is the identity here);
`hashResult` is `some h` when `calculate_file_hash` returns the digest `h`,
and `none` when opening/reading the file raises (`src/file_tracking.py:13-20`
has no handler, so the exception propagates). -/
structure FsFile where
  path : String
  size : Nat
  modified_time : Nat
  hashResult : Option String
deriving DecidableEq, Repr

/-- One manifest entry (`src/file_tracking.py:22-30`): size, mtime, content
hash and last-processed timestamp. -/
structure FileMeta where
  size : Nat
  modified_time : Nat
  hash : String
  last_processed : String
deriving DecidableEq, Repr

/-- The tracked-files dict of the manifest, keyed by relative path. -/
abbrev TrackedFiles := List (String × FileMeta)

/-- The tracking manifest (`src/file_tracking.py:42`):
`{"files": {...}, "last_update": ...}`. -/
structure TrackingData where
  files : TrackedFiles
  last_update : String
deriving DecidableEq, Repr

/-- `get_file_metadata` (`src/file_tracking.py:22-30`), for a file whose hash
computed to `h`; `now` is the `datetime.now().isoformat()` timestamp. -/
def get_file_metadata (f : FsFile) (h : String) (now : String) : FileMeta :=
  { size := f.size, modified_time := f.modified_time, hash := h, last_processed := now }

/-- `save_file_tracking` (`src/file_tracking.py:44-48`): stamps
`last_update` and writes the manifest to disk unconditionally; the returned
value is the content written. -/
def save_file_tracking (td : TrackingData) (now : String) : TrackingData :=
  { td with last_update := now }

/-- The new-and-changed detection loop of `check_files_changed`
(`src/file_tracking.py:64-81`), threading the in-memory `tracked_files` dict
and the `new_or_changed_files` accumulator.  A file whose hash computation
raises aborts the whole loop (there is no per-file handler inside
`check_files_changed`), modelled as `.error` carrying the file's path. -/
def processCurrentFiles (now : String) :
    List FsFile → TrackedFiles → List String →
    Except String (List String × TrackedFiles)
  | [], tracked, changed => .ok (changed, tracked)
  | f :: rest, tracked, changed =>
    match lookupA tracked f.path with
    | none =>
      match f.hashResult with
      | none => .error f.path
      | some h =>
        processCurrentFiles now rest (setA tracked f.path (get_file_metadata f h now))
          (changed ++ [f.path])
    | some m =>
      match f.hashResult with
      | none => .error f.path
      | some h =>
        if h = m.hash then processCurrentFiles now rest tracked changed
        else
          processCurrentFiles now rest (setA tracked f.path (get_file_metadata f h now))
            (changed ++ [f.path])

/-- `check_files_changed` (`src/file_tracking.py:50-94`): detect new/changed
files, drop manifest entries whose path is no longer on disk, then save the
manifest (stamping `last_update := now`).  `fs` is the extension-filtered
directory listing; an unreadable file propagates as `.error` and nothing is
saved (the on-disk manifest keeps its pre-scan content). -/
def check_files_changed (now : String) (fs : List FsFile) (td : TrackingData) :
    Except String (List String × TrackingData) :=
  match processCurrentFiles now fs td.files [] with
  | .error e => .error e
  | .ok (changed, tracked) =>
    let tracked2 := tracked.filter fun e => fs.any fun f => f.path = e.1
    .ok (changed, save_file_tracking { files := tracked2, last_update := td.last_update } now)

/-! ## Document loading (`src/file_loaders.py`) -/

/-- One input of `load_specific_documents`: the file path and the extraction
outcome for it.  `none` models both a loader raising inside the per-file
`try` (`src/file_loaders.py:55-56`) and `get_file_loader` returning `None`
for an unsupported extension; either way the file contributes nothing. -/
structure LoadInput where
  path : String
  extracted : Option (List Doc)
deriving DecidableEq, Repr

/-- One iteration of the `load_specific_documents` loop body
(`src/file_loaders.py:42-57`): on success tag each document with the source
file and extend the accumulator, on failure (or unsupported type) skip the
file.  `os.path.basename` is elided: `path` already stands for the base name
written into `source_file`. -/
def loadOne (acc : List Doc) (inp : LoadInput) : List Doc :=
  match inp.extracted with
  | some ds => acc ++ ds.map fun d => { d with source_file := some inp.path }
  | none => acc

/-- `load_specific_documents` (`src/file_loaders.py:38-58`): per file, run
its loader inside a per-file `try`; failures skip that file only and the loop
continues with the rest. -/
def load_specific_documents (inputs : List LoadInput) : List Doc :=
  inputs.foldl loadOne []

/-! ## Vector store (`src/vector_store.py`) -/

/-- Python truthiness of the optional `docs` argument of
`initialize_or_load_vector_store`: both `None` (absent) and `[]` are falsy,
so `if docs:` and `if not docs:` treat them alike. -/
def docsTruthy : Option (List Doc) → Bool
  | none => false
  | some ds => !ds.isEmpty

/-- Modelled from the spec: the Chroma index is an external black box (§1,
§4.3 of the spec); its persisted collection is the ordered list of stored
chunks (each entry standing for one embedded vector plus its payload), and
`add_documents` upserts the new chunks' vectors without removing any stored
vector — i.e. appends. -/
def Chroma_add_documents (store docs : List Doc) : List Doc :=
  store ++ docs

/-- Modelled from the spec: `Chroma.from_documents` builds a fresh persisted
collection holding exactly the given chunks' vectors. -/
def Chroma_from_documents (docs : List Doc) : List Doc :=
  docs

/-- `initialize_or_load_vector_store` (`src/vector_store.py:12-45`).
`persisted = some store` models "the index directory exists and is
non-empty" (then `Chroma(persist_directory=...)` loads `store`);
`persisted = none` models the directory missing or empty.  With an existing
store, new docs (if truthy) are added via `add_documents`; with no existing
store, falsy docs raise `ValueError` and truthy docs build a fresh index. -/
def initialize_or_load_vector_store (docs : Option (List Doc))
    (persisted : Option (List Doc)) : Except String (List Doc) :=
  match persisted with
  | some store =>
    if docsTruthy docs then .ok (Chroma_add_documents store (docs.getD []))
    else .ok store
  | none =>
    if docsTruthy docs then .ok (Chroma_from_documents (docs.getD []))
    else .error "首次创建向量存储时必须提供文档"

/-! ## Helper lemmas -/

theorem lookupA_setA_self {α : Type} (l : List (String × α)) (k : String) (v : α) :
    lookupA (setA l k v) k = some v := by
  induction l with
  | nil => simp [setA, lookupA]
  | cons e rest ih =>
    obtain ⟨k1, v1⟩ := e
    by_cases hk : k1 = k
    · simp [setA, hk, lookupA]
    · simp [setA, hk, lookupA, ih]

theorem lookupA_setA_ne {α : Type} (l : List (String × α)) (k k' : String) (v : α)
    (h : k' ≠ k) : lookupA (setA l k v) k' = lookupA l k' := by
  induction l with
  | nil => simp [setA, lookupA, Ne.symm h]
  | cons e rest ih =>
    obtain ⟨k1, v1⟩ := e
    by_cases hk : k1 = k
    · subst hk
      simp [setA, lookupA, Ne.symm h]
    · simp [setA, hk, lookupA, ih]

theorem storeGet_setA_self (store : ChatHistoryStore) (sid : String) (s : Session) :
    storeGet (setA store sid s) sid = s := by
  simp [storeGet, lookupA_setA_self]

theorem storeGet_setA_ne (store : ChatHistoryStore) (sid sid' : String) (s : Session)
    (h : sid' ≠ sid) : storeGet (setA store sid s) sid' = storeGet store sid' := by
  simp [storeGet, lookupA_setA_ne _ _ _ _ h]

theorem lookupA_filter_key {α : Type} (p : String → Bool) (l : List (String × α))
    (k : String) :
    lookupA (l.filter fun e => p e.1) k = if p k then lookupA l k else none := by
  induction l with
  | nil => simp [lookupA]
  | cons e rest ih =>
    obtain ⟨k1, v1⟩ := e
    by_cases hp : p k1
    · by_cases hk : k1 = k
      · subst hk
        simp [List.filter, hp, lookupA, ih]
      · simp [List.filter, hp, lookupA, hk, ih]
    · by_cases hk : k1 = k
      · subst hk
        simp [List.filter, hp, lookupA, ih]
      · simp [List.filter, hp, lookupA, hk, ih]

theorem capHistory_length (h : Session) : (capHistory h).length ≤ 20 := by
  unfold capHistory
  by_cases hl : h.length > 20
  · simp [hl]
    omega
  · simp [hl]
    omega

theorem capHistory_concat_getLast (l : List Message) (x : Message) :
    (capHistory (l ++ [x])).getLast? = some x := by
  unfold capHistory
  split
  · have hle : (l ++ [x]).length - 20 ≤ l.length := by
      simp only [List.length_append, List.length_singleton]
      omega
    rw [List.drop_append_of_le_length hle, List.getLast?_concat]
  · exact List.getLast?_concat l

theorem capHistory_concat2_getLast (l : List Message) (x y : Message) :
    (capHistory (l ++ [x, y])).getLast? = some y := by
  have h2 : l ++ [x, y] = (l ++ [x]) ++ [y] := by simp
  rw [h2]
  exact capHistory_concat_getLast _ _

theorem stream_history_input_eq (store : ChatHistoryStore) (sid q : String) :
    stream_history_input store sid q = storeGet store sid := by
  simp [stream_history_input, storeGet_setA_self]

/-- The detection loop leaves the entry and the changed-report of any path it
never visits alone. -/
theorem processCurrentFiles_untouched (now : String) :
    ∀ (fs : List FsFile) (tracked : TrackedFiles) (changed ch : List String)
      (tr : TrackedFiles) (p : String),
      p ∉ fs.map FsFile.path →
      processCurrentFiles now fs tracked changed = .ok (ch, tr) →
      lookupA tr p = lookupA tracked p ∧ (p ∈ ch ↔ p ∈ changed) := by
  intro fs
  induction fs with
  | nil =>
    intro tracked changed ch tr p _ hok
    simp [processCurrentFiles] at hok
    simp [hok.1, hok.2]
  | cons f rest ih =>
    intro tracked changed ch tr p hp hok
    rw [List.map_cons] at hp
    have hpf : p ≠ f.path := by
      intro hh
      exact hp (by simp [hh])
    have hprest : p ∉ List.map FsFile.path rest := by
      intro hh
      exact hp (List.mem_cons_of_mem _ hh)
    cases hl : lookupA tracked f.path with
    | none =>
      cases hh : f.hashResult with
      | none => simp [processCurrentFiles, hl, hh] at hok
      | some h =>
        simp [processCurrentFiles, hl, hh] at hok
        obtain ⟨h1, h2⟩ := ih _ _ _ _ p hprest hok
        refine ⟨?_, ?_⟩
        · rw [h1, lookupA_setA_ne _ _ _ _ hpf]
        · rw [h2]
          simp [hpf]
    | some m =>
      cases hh : f.hashResult with
      | none => simp [processCurrentFiles, hl, hh] at hok
      | some h =>
        by_cases he : h = m.hash
        · simp [processCurrentFiles, hl, hh, he] at hok
          exact ih _ _ _ _ p hprest hok
        · simp [processCurrentFiles, hl, hh, he] at hok
          obtain ⟨h1, h2⟩ := ih _ _ _ _ p hprest hok
          refine ⟨?_, ?_⟩
          · rw [h1, lookupA_setA_ne _ _ _ _ hpf]
          · rw [h2]
            simp [hpf]

/-- The detection loop never errors when every file is readable. -/
theorem processCurrentFiles_ok_of_readable (now : String) :
    ∀ (fs : List FsFile) (tracked : TrackedFiles) (changed : List String),
      (∀ f ∈ fs, f.hashResult ≠ none) →
      ∃ ch tr, processCurrentFiles now fs tracked changed = .ok (ch, tr) := by
  intro fs
  induction fs with
  | nil =>
    intro tracked changed _
    exact ⟨changed, tracked, rfl⟩
  | cons f rest ih =>
    intro tracked changed hr
    have hf : f.hashResult ≠ none := hr f (by simp)
    have hrest : ∀ g ∈ rest, g.hashResult ≠ none := fun g hg => hr g (by simp [hg])
    cases hh : f.hashResult with
    | none => exact absurd hh hf
    | some h =>
      cases hl : lookupA tracked f.path with
      | none =>
        obtain ⟨ch, tr, htr⟩ := ih (setA tracked f.path (get_file_metadata f h now))
          (changed ++ [f.path]) hrest
        exact ⟨ch, tr, by simp [processCurrentFiles, hl, hh, htr]⟩
      | some m =>
        by_cases he : h = m.hash
        · obtain ⟨ch, tr, htr⟩ := ih tracked changed hrest
          exact ⟨ch, tr, by simp [processCurrentFiles, hl, hh, he, htr]⟩
        · obtain ⟨ch, tr, htr⟩ := ih (setA tracked f.path (get_file_metadata f h now))
            (changed ++ [f.path]) hrest
          exact ⟨ch, tr, by simp [processCurrentFiles, hl, hh, he, htr]⟩

/-- When every current file is readable and already tracked under a matching
hash, the detection loop reports nothing and leaves the dict untouched. -/
theorem processCurrentFiles_nochange (now : String) :
    ∀ (fs : List FsFile) (tracked : TrackedFiles) (changed : List String),
      (∀ f ∈ fs, ∃ h m, f.hashResult = some h ∧
        lookupA tracked f.path = some m ∧ m.hash = h) →
      processCurrentFiles now fs tracked changed = .ok (changed, tracked) := by
  intro fs
  induction fs with
  | nil =>
    intro tracked changed _
    rfl
  | cons f rest ih =>
    intro tracked changed hmatch
    obtain ⟨h, m, hh, hl, hhash⟩ := hmatch f (by simp)
    have hrest : ∀ g ∈ rest, ∃ h m, g.hashResult = some h ∧
        lookupA tracked g.path = some m ∧ m.hash = h :=
      fun g hg => hmatch g (by simp [hg])
    simp [processCurrentFiles, hl, hh, hhash.symm, ih tracked changed hrest]

/-- A hash failure anywhere in the batch makes the detection loop abort. -/
theorem processCurrentFiles_error_of_unreadable (now : String) :
    ∀ (fs : List FsFile) (tracked : TrackedFiles) (changed : List String),
      (∃ f ∈ fs, f.hashResult = none) →
      ∃ e, processCurrentFiles now fs tracked changed = .error e := by
  intro fs
  induction fs with
  | nil =>
    intro tracked changed hbad
    simp at hbad
  | cons f rest ih =>
    intro tracked changed hbad
    cases hh : f.hashResult with
    | none =>
      cases hl : lookupA tracked f.path with
      | none => exact ⟨f.path, by simp [processCurrentFiles, hl, hh]⟩
      | some m => exact ⟨f.path, by simp [processCurrentFiles, hl, hh]⟩
    | some h =>
      have hbadrest : ∃ g ∈ rest, g.hashResult = none := by
        obtain ⟨g, hg, hgn⟩ := hbad
        rcases List.mem_cons.mp hg with hg | hg
        · subst hg
          rw [hh] at hgn
          exact absurd hgn (by simp)
        · exact ⟨g, hg, hgn⟩
      cases hl : lookupA tracked f.path with
      | none =>
        obtain ⟨e, he⟩ := ih (setA tracked f.path (get_file_metadata f h now))
          (changed ++ [f.path]) hbadrest
        exact ⟨e, by simp [processCurrentFiles, hl, hh, he]⟩
      | some m =>
        by_cases heq : h = m.hash
        · obtain ⟨e, he⟩ := ih tracked changed hbadrest
          exact ⟨e, by simp [processCurrentFiles, hl, hh, heq, he]⟩
        · obtain ⟨e, he⟩ := ih (setA tracked f.path (get_file_metadata f h now))
            (changed ++ [f.path]) hbadrest
          exact ⟨e, by simp [processCurrentFiles, hl, hh, heq, he]⟩

/-- What the detection loop decides for a file already tracked under `m`:
it is reported iff the recomputed hash differs from `m.hash`, and its entry is
then replaced by fresh metadata (otherwise left as `m`). -/
theorem processCurrentFiles_tracked (now : String) :
    ∀ (fs : List FsFile) (tracked : TrackedFiles) (changed ch : List String)
      (tr : TrackedFiles) (f : FsFile) (h : String) (m : FileMeta),
      f ∈ fs → (fs.map FsFile.path).Nodup → f.hashResult = some h →
      f.path ∉ changed → lookupA tracked f.path = some m →
      processCurrentFiles now fs tracked changed = .ok (ch, tr) →
      (f.path ∈ ch ↔ h ≠ m.hash) ∧
        lookupA tr f.path =
          (if h = m.hash then some m else some (get_file_metadata f h now)) := by
  intro fs
  induction fs with
  | nil =>
    intro _ _ _ _ _ _ _ hf
    simp at hf
  | cons g rest ih =>
    intro tracked changed ch tr f h m hf hnd hh hnc hl hok
    rw [List.map_cons, List.nodup_cons] at hnd
    obtain ⟨hgnd, hndrest⟩ := hnd
    rcases List.mem_cons.mp hf with hfg | hfr
    · subst hfg
      by_cases he : h = m.hash
      · simp [processCurrentFiles, hl, hh, he] at hok
        obtain ⟨h1, h2⟩ := processCurrentFiles_untouched now rest _ _ _ _ f.path hgnd hok
        refine ⟨?_, ?_⟩
        · rw [h2]
          simp [he, hnc]
        · rw [h1, hl, if_pos he]
      · simp [processCurrentFiles, hl, hh, he] at hok
        obtain ⟨h1, h2⟩ := processCurrentFiles_untouched now rest _ _ _ _ f.path hgnd hok
        refine ⟨?_, ?_⟩
        · rw [h2]
          simp [he]
        · rw [h1, lookupA_setA_self, if_neg he]
    · have hfp : f.path ≠ g.path := by
        intro hpp
        exact hgnd (hpp ▸ List.mem_map_of_mem FsFile.path hfr)
      cases hhg : g.hashResult with
      | none =>
        cases hlg : lookupA tracked g.path with
        | none => simp [processCurrentFiles, hlg, hhg] at hok
        | some mg => simp [processCurrentFiles, hlg, hhg] at hok
      | some hg =>
        cases hlg : lookupA tracked g.path with
        | none =>
          simp [processCurrentFiles, hlg, hhg] at hok
          refine ih _ _ _ _ f h m hfr hndrest hh ?_ ?_ hok
          · simp [hnc, hfp]
          · rw [lookupA_setA_ne _ _ _ _ hfp, hl]
        | some mg =>
          by_cases heg : hg = mg.hash
          · simp [processCurrentFiles, hlg, hhg, heg] at hok
            exact ih _ _ _ _ f h m hfr hndrest hh hnc hl hok
          · simp [processCurrentFiles, hlg, hhg, heg] at hok
            refine ih _ _ _ _ f h m hfr hndrest hh ?_ ?_ hok
            · simp [hnc, hfp]
            · rw [lookupA_setA_ne _ _ _ _ hfp, hl]

/-- After the detection loop, every visited readable file has an entry whose
stored hash is its freshly computed hash (whether it was new, changed or
unchanged). -/
theorem processCurrentFiles_hash (now : String) :
    ∀ (fs : List FsFile) (tracked : TrackedFiles) (changed ch : List String)
      (tr : TrackedFiles) (f : FsFile) (h : String),
      f ∈ fs → (fs.map FsFile.path).Nodup → f.hashResult = some h →
      processCurrentFiles now fs tracked changed = .ok (ch, tr) →
      ∃ m', lookupA tr f.path = some m' ∧ m'.hash = h := by
  intro fs
  induction fs with
  | nil =>
    intro _ _ _ _ _ _ hf
    simp at hf
  | cons g rest ih =>
    intro tracked changed ch tr f h hf hnd hh hok
    rw [List.map_cons, List.nodup_cons] at hnd
    obtain ⟨hgnd, hndrest⟩ := hnd
    rcases List.mem_cons.mp hf with hfg | hfr
    · subst hfg
      cases hl : lookupA tracked f.path with
      | none =>
        simp [processCurrentFiles, hl, hh] at hok
        obtain ⟨h1, _⟩ := processCurrentFiles_untouched now rest _ _ _ _ f.path hgnd hok
        exact ⟨get_file_metadata f h now, by rw [h1, lookupA_setA_self], rfl⟩
      | some m =>
        by_cases he : h = m.hash
        · simp [processCurrentFiles, hl, hh, he] at hok
          obtain ⟨h1, _⟩ := processCurrentFiles_untouched now rest _ _ _ _ f.path hgnd hok
          exact ⟨m, by rw [h1, hl], he.symm⟩
        · simp [processCurrentFiles, hl, hh, he] at hok
          obtain ⟨h1, _⟩ := processCurrentFiles_untouched now rest _ _ _ _ f.path hgnd hok
          exact ⟨get_file_metadata f h now, by rw [h1, lookupA_setA_self], rfl⟩
    · cases hhg : g.hashResult with
      | none =>
        cases hlg : lookupA tracked g.path with
        | none => simp [processCurrentFiles, hlg, hhg] at hok
        | some mg => simp [processCurrentFiles, hlg, hhg] at hok
      | some hg =>
        cases hlg : lookupA tracked g.path with
        | none =>
          simp [processCurrentFiles, hlg, hhg] at hok
          exact ih _ _ _ _ f h hfr hndrest hh hok
        | some mg =>
          by_cases heg : hg = mg.hash
          · simp [processCurrentFiles, hlg, hhg, heg] at hok
            exact ih _ _ _ _ f h hfr hndrest hh hok
          · simp [processCurrentFiles, hlg, hhg, heg] at hok
            exact ih _ _ _ _ f h hfr hndrest hh hok

/-- The deletion filter of `check_files_changed` keeps exactly the entries
whose key is a current path, and looking a key up commutes with it. -/
theorem lookupA_filter_current (fs : List FsFile) (l : TrackedFiles) (k : String) :
    lookupA (l.filter fun e => fs.any fun f => f.path = e.1) k =
      (if fs.any fun f => f.path = k then lookupA l k else none) :=
  lookupA_filter_key (fun k => fs.any fun f => f.path = k) l k

/-- The document-loading fold only ever appends to its accumulator. -/
theorem foldl_loadOne_acc : ∀ (l : List LoadInput) (acc : List Doc),
    l.foldl loadOne acc = acc ++ l.foldl loadOne [] := by
  intro l
  induction l with
  | nil =>
    intro acc
    simp
  | cons x l ih =>
    intro acc
    rw [List.foldl_cons, List.foldl_cons, ih (loadOne acc x), ih (loadOne [] x)]
    cases hx : x.extracted with
    | none => simp [loadOne, hx]
    | some ds => simp [loadOne, hx]

/-! ## Claims -/

/-- **C10** — A `query` or `streamQuery` call with an empty question returns
the error result before the session store is touched (`src/app.py:162-166`
and `src/app.py:230-234` both run before the history bookkeeping): no event
stream is started, no session is created and no message is appended. -/
theorem C10_empty_question_rejected :
    ∀ (genB : String → List Message → Option (String × List Doc))
      (retrOut : Option (List Doc)) (genS : String → GenOutcome)
      (st : AppState) (store : ChatHistoryStore) (sid : String),
      query genB st sid "" = (.error "问题不能为空", st) ∧
      stream_query retrOut genS store sid "" = (.errorResponse "问题不能为空", store) := by
  intro genB retrOut genS st store sid
  exact ⟨by simp [query], by simp [stream_query]⟩

/-- **C8** — With no persisted index (directory missing or empty), calling
the vector store with no chunks — `docs` absent or the empty list — fails
with the bootstrap error instead of creating an empty index, while a
non-empty chunk list creates a fresh index from exactly those chunks
(`src/vector_store.py:33-43`). -/
theorem C8_bootstrap_requires_chunks (ds : List Doc) (hds : ds ≠ []) :
    initialize_or_load_vector_store none none = .error "首次创建向量存储时必须提供文档" ∧
    initialize_or_load_vector_store (some []) none = .error "首次创建向量存储时必须提供文档" ∧
    initialize_or_load_vector_store (some ds) none = .ok (Chroma_from_documents ds) := by
  refine ⟨rfl, rfl, ?_⟩
  simp [initialize_or_load_vector_store, docsTruthy, hds]

/-- Witness for C8 at a concrete one-chunk list. -/
theorem C8_bootstrap_requires_chunks_witness :
    initialize_or_load_vector_store none none = .error "首次创建向量存储时必须提供文档" ∧
    initialize_or_load_vector_store (some []) none = .error "首次创建向量存储时必须提供文档" ∧
    initialize_or_load_vector_store (some [⟨"t", none, none⟩]) none =
      .ok (Chroma_from_documents [⟨"t", none, none⟩]) :=
  C8_bootstrap_requires_chunks [⟨"t", none, none⟩] (by simp)

/-- **C9** — Upserting new chunks into an existing persisted index keeps
every previously stored vector: the existing-index branch of
`initialize_or_load_vector_store` loads the persisted collection and (at
most) calls `add_documents` on it (`src/vector_store.py:20-31`), which by the
index's black-box contract appends and never discards. -/
theorem C9_upsert_preserves_vectors (docs : Option (List Doc)) (store : List Doc)
    (v : Doc) (hv : v ∈ store) :
    ∃ idx, initialize_or_load_vector_store docs (some store) = .ok idx ∧ v ∈ idx := by
  cases ht : docsTruthy docs
  · exact ⟨store, by simp [initialize_or_load_vector_store, ht], hv⟩
  · exact ⟨store ++ docs.getD [],
      by simp [initialize_or_load_vector_store, ht, Chroma_add_documents],
      List.mem_append_left _ hv⟩

/-- Witness for C9: a concrete stored vector survives a concrete upsert. -/
theorem C9_upsert_preserves_vectors_witness :
    ∃ idx, initialize_or_load_vector_store (some [⟨"new", none, none⟩])
      (some [⟨"old", none, none⟩]) = .ok idx ∧ (⟨"old", none, none⟩ : Doc) ∈ idx :=
  C9_upsert_preserves_vectors (some [⟨"new", none, none⟩]) [⟨"old", none, none⟩]
    ⟨"old", none, none⟩ (by simp)

/-- **C1** — Evaluation of the code at the failing input: session `"s1"`,
question `"q"`, retrieval succeeds with no documents, and the generation
service emits the fragment `"A"` and then raises mid-stream.  The stream is
cut off after the sources event and the one token event with no `end` event
— but the user message appended at the start of the call is *not* removed:
the session ends with the orphaned unanswered question, because the
`except` branch of `stream_query` (`src/app.py:299-302`) ran its course
before the generator body executed and can no longer fire. -/
theorem C1_midstream_failure_keeps_user_message :
    stream_query (some []) (fun _ => GenOutcome.fail ["A"]) [] "s1" "q" =
      (.streamAborted [Event.sources [], Event.token "A"], [("s1", [⟨"user", "q"⟩])]) ∧
    get_history [("s1", [⟨"user", "q"⟩])] "s1" = [⟨"user", "q"⟩] ∧
    Event.endEvent ∉ [Event.sources ([] : List SourceInfo), Event.token "A"] := by
  refine ⟨by decide, by decide, by decide⟩

/-- **C4** — For a successful streaming query, the emitted event sequence is
exactly one `sources` event, then the `token` events in the generation
service's fragment order, then exactly one `end` event; and the assistant
message stored in the session at completion is the concatenation of the
fragments (`src/app.py:257-292`). -/
theorem C4_stream_protocol_order
    (docs : List Doc) (gen : String → GenOutcome) (store : ChatHistoryStore)
    (sid q : String) (chunks : List String)
    (hq : q ≠ "") (hgen : gen (stream_prompt docs store sid q) = .ok chunks) :
    (stream_query (some docs) gen store sid q).1 =
      .streamOk (Event.sources (docs.map source_info) ::
        (chunks.map Event.token ++ [Event.endEvent])) ∧
    (storeGet (stream_query (some docs) gen store sid q).2 sid).getLast? =
      some ⟨"assistant", chunks.foldl (· ++ ·) ""⟩ := by
  constructor
  · simp [stream_query, hq, hgen]
  · simp [stream_query, hq, hgen, storeGet_setA_self, capHistory_concat2_getLast]

/-- Witness for C4 with a stubbed two-fragment generation service. -/
theorem C4_stream_protocol_order_witness :
    (stream_query (some []) (fun _ => GenOutcome.ok ["Paris", " is"]) [] "s" "hi").1 =
      .streamOk [Event.sources [], Event.token "Paris", Event.token " is",
        Event.endEvent] ∧
    (storeGet (stream_query (some []) (fun _ => GenOutcome.ok ["Paris", " is"])
        [] "s" "hi").2 "s").getLast? = some ⟨"assistant", "Paris is"⟩ := by
  have h := C4_stream_protocol_order [] (fun _ => GenOutcome.ok ["Paris", " is"])
    [] "s" "hi" ["Paris", " is"] (by simp) rfl
  simpa using h

/-- **C2, counterexample** — Buffered history is *not* per-session: against
the stubbed generation service, a fresh buffered call in session `"s2"` is
answered from an empty history, but after one buffered round-trip in session
`"s1"` only, the same call in `"s2"` is answered from a non-empty history —
the chain's single `ConversationBufferMemory` now holds session `"s1"`'s
turn — although session `"s2"` still has no prior messages of its own. -/
theorem C2_cross_session_history_counterexample :
    (query stubGen ⟨[], []⟩ "s2" "q").1 = .success "empty" [] ∧
    (query stubGen (query stubGen ⟨[], []⟩ "s1" "p").2 "s2" "q").1 =
      .success "nonempty" [] ∧
    storeGet (query stubGen ⟨[], []⟩ "s1" "p").2.store "s2" = [] ∧
    (query stubGen ⟨[], []⟩ "s1" "p").2.qaMemory =
      [⟨"user", "p"⟩, ⟨"assistant", "empty"⟩] := by
  refine ⟨by decide, by decide, by decide, by decide⟩

/-- **C2, amended** — Only the streaming endpoint assembles per-session
context: the history it renders is exactly the stored message list of the
requested session (`src/app.py:247`).  The buffered endpoint instead feeds
the chain's single global `ConversationBufferMemory`, to which every
successful buffered call appends its question/answer turn regardless of the
session id (`src/app.py:177`, `src/qa_chain.py:18-22`), so buffered answers
can depend on other sessions' messages. -/
theorem C2_context_assembly_amended :
    (∀ (store : ChatHistoryStore) (sid q : String),
       stream_history_input store sid q = storeGet store sid) ∧
    (∀ (st : AppState) (sid q ans : String) (docs : List Doc), q ≠ "" →
       (query (fun _ _ => some (ans, docs)) st sid q).2.qaMemory =
         st.qaMemory ++ [⟨"user", q⟩, ⟨"assistant", ans⟩]) := by
  constructor
  · exact stream_history_input_eq
  · intro st sid q ans docs hq
    simp [query, hq]

/-- Witness for the amended C2 at concrete inputs. -/
theorem C2_context_assembly_amended_witness :
    stream_history_input [("s", [⟨"user", "p"⟩])] "s" "q" =
      storeGet [("s", [⟨"user", "p"⟩])] "s" ∧
    (query (fun _ _ => some ("a", [])) ⟨[], []⟩ "s" "q").2.qaMemory =
      [] ++ [⟨"user", "q"⟩, ⟨"assistant", "a"⟩] :=
  ⟨C2_context_assembly_amended.1 [("s", [⟨"user", "p"⟩])] "s" "q",
   C2_context_assembly_amended.2 ⟨[], []⟩ "s" "q" "a" [] (by simp)⟩

/-- **C5** — The session cap: (1) a successful buffered round-trip leaves the
session equal to the capped extension of its previous content by the new
user/assistant pair; (2) likewise for a successful streaming round-trip, the
assistant content being the fragment concatenation; (3) the cap keeps
exactly the most recent 20 messages, dropping oldest first, whenever the
length exceeds 20; (4) hence over every sequence of successful round-trips
from a fresh store, `getHistory` never returns more than 20 messages. -/
theorem C5_session_cap :
    (∀ (st : AppState) (sid q ans : String), q ≠ "" →
       storeGet (runCall st (.buffered sid q ans)).store sid =
         capHistory (storeGet st.store sid ++ [⟨"user", q⟩, ⟨"assistant", ans⟩])) ∧
    (∀ (st : AppState) (sid q : String) (docs : List Doc) (chunks : List String),
       q ≠ "" →
       storeGet (runCall st (.streaming sid q docs chunks)).store sid =
         capHistory (storeGet st.store sid ++
           [⟨"user", q⟩, ⟨"assistant", chunks.foldl (· ++ ·) ""⟩])) ∧
    (∀ h : Session, 20 < h.length →
       capHistory h = h.drop (h.length - 20) ∧ (capHistory h).length = 20) ∧
    (∀ (calls : List CallDesc) (sid : String),
       (get_history (runCalls ⟨[], []⟩ calls).store sid).length ≤ 20) := by
  refine ⟨?_, ?_, ?_, ?_⟩
  · intro st sid q ans hq
    simp [runCall, query, hq, storeGet_setA_self]
  · intro st sid q docs chunks hq
    simp [runCall, stream_query, hq, storeGet_setA_self]
  · intro h hl
    unfold capHistory
    rw [if_pos hl]
    exact ⟨rfl, by simp; omega⟩
  · have key : ∀ (calls : List CallDesc) (st : AppState),
        (∀ sid, (storeGet st.store sid).length ≤ 20) →
        ∀ sid, (storeGet (runCalls st calls).store sid).length ≤ 20 := by
      intro calls
      induction calls with
      | nil =>
        intro st hst sid
        exact hst sid
      | cons c rest ih =>
        intro st hst sid
        refine ih (runCall st c) ?_ sid
        intro sid'
        cases c with
        | buffered cid q ans =>
          by_cases hq : q = ""
          · simpa [runCall, query, hq] using hst sid'
          · by_cases hs : sid' = cid
            · subst hs
              simp [runCall, query, hq, storeGet_setA_self]
              exact capHistory_length _
            · simpa [runCall, query, hq, storeGet_setA_ne _ _ _ _ hs] using hst sid'
        | streaming cid q docs chunks =>
          by_cases hq : q = ""
          · simpa [runCall, stream_query, hq] using hst sid'
          · by_cases hs : sid' = cid
            · subst hs
              simp [runCall, stream_query, hq, storeGet_setA_self]
              exact capHistory_length _
            · simpa [runCall, stream_query, hq, storeGet_setA_ne _ _ _ _ hs]
                using hst sid'
    intro calls sid
    refine key calls ⟨[], []⟩ ?_ sid
    intro sid'
    simp [storeGet, lookupA]

/-- Witness for C5 at concrete inputs: one buffered and one streaming
round-trip on a fresh state, and the cap at a concrete 21-message list. -/
theorem C5_session_cap_witness :
    storeGet (runCall ⟨[], []⟩ (.buffered "s" "q" "a")).store "s" =
      capHistory (storeGet ([] : ChatHistoryStore) "s" ++
        [⟨"user", "q"⟩, ⟨"assistant", "a"⟩]) ∧
    storeGet (runCall ⟨[], []⟩ (.streaming "s" "q" [] ["x", "y"])).store "s" =
      capHistory (storeGet ([] : ChatHistoryStore) "s" ++
        [⟨"user", "q"⟩, ⟨"assistant", ["x", "y"].foldl (· ++ ·) ""⟩]) ∧
    capHistory (List.replicate 21 (⟨"user", "m"⟩ : Message)) =
      (List.replicate 21 (⟨"user", "m"⟩ : Message)).drop
        ((List.replicate 21 (⟨"user", "m"⟩ : Message)).length - 20) ∧
    (get_history (runCalls ⟨[], []⟩ [.buffered "s" "q" "a"]).store "s").length ≤ 20 :=
  ⟨C5_session_cap.1 ⟨[], []⟩ "s" "q" "a" (by simp),
   C5_session_cap.2.1 ⟨[], []⟩ "s" "q" [] ["x", "y"] (by simp),
   (C5_session_cap.2.2.1 (List.replicate 21 ⟨"user", "m"⟩) (by simp)).1,
   C5_session_cap.2.2.2 [.buffered "s" "q" "a"] "s"⟩

/-- **C3, counterexample** — A hash failure is *not* isolated to its file:
with a batch holding an unreadable file followed by a fresh readable one, the
whole scan aborts with the unreadable file's error, so the second file is
never examined, the changed list is never produced and the manifest is not
written. -/
theorem C3_hash_failure_aborts_scan :
    check_files_changed "t1"
      [⟨"bad.txt", 1, 1, none⟩, ⟨"new.txt", 2, 2, some "h2"⟩]
      ⟨[], "t0"⟩ = .error "bad.txt" := by
  rfl

/-- **C3, amended** — Extraction failures are isolated per file: a failing
file contributes nothing and the remaining files of the batch are loaded
exactly as if it were absent (`src/file_loaders.py:42-56`).  A hash failure
during the tracker scan, however, aborts the entire scan
(`src/file_tracking.py:64-81` has no per-file handler around
`calculate_file_hash`): the error propagates before `save_file_tracking`
runs, so no file of that pass is recorded, the on-disk manifest keeps its
pre-scan content uncorrupted, and every changed file — the failing one
included — is reported again by the next scan. -/
theorem C3_failure_isolation_amended :
    (∀ (pre post : List LoadInput) (inp : LoadInput), inp.extracted = none →
       load_specific_documents (pre ++ inp :: post) =
         load_specific_documents (pre ++ post)) ∧
    (∀ (now : String) (fs : List FsFile) (td : TrackingData),
       (∃ f ∈ fs, f.hashResult = none) →
       ∃ e, check_files_changed now fs td = .error e) := by
  constructor
  · intro pre post inp hinp
    unfold load_specific_documents
    rw [List.foldl_append, List.foldl_cons, List.foldl_append]
    simp [loadOne, hinp]
  · intro now fs td hbad
    obtain ⟨e, he⟩ := processCurrentFiles_error_of_unreadable now fs td.files [] hbad
    exact ⟨e, by simp [check_files_changed, he]⟩

/-- Witness for the amended C3 at concrete inputs. -/
theorem C3_failure_isolation_amended_witness :
    load_specific_documents ([⟨"good.txt", some [⟨"text", none, none⟩]⟩] ++
        ⟨"bad.txt", none⟩ :: []) =
      load_specific_documents ([⟨"good.txt", some [⟨"text", none, none⟩]⟩] ++ []) ∧
    ∃ e, check_files_changed "t1" [⟨"bad.txt", 1, 1, none⟩] ⟨[], "t0"⟩ = .error e :=
  ⟨C3_failure_isolation_amended.1 _ _ _ rfl,
   C3_failure_isolation_amended.2 "t1" _ _ ⟨⟨"bad.txt", 1, 1, none⟩, by simp, rfl⟩⟩

/-- **C7** — For a file already present in the manifest, a scan that
completes reports it as changed exactly when its recomputed content hash
differs from the stored hash — the comparison at `src/file_tracking.py:76-77`
reads nothing but the hash, so a content change preserving the stored byte
size and mtime is still reported — and a changed file's manifest entry is
replaced in that scan by fresh metadata carrying the new hash. -/
theorem C7_change_detection_iff
    (now : String) (fs : List FsFile) (td : TrackingData) (f : FsFile)
    (h : String) (m : FileMeta) (ch : List String) (td1 : TrackingData)
    (hnd : (fs.map FsFile.path).Nodup)
    (hf : f ∈ fs) (hh : f.hashResult = some h)
    (hm : lookupA td.files f.path = some m)
    (hok : check_files_changed now fs td = .ok (ch, td1)) :
    (f.path ∈ ch ↔ h ≠ m.hash) ∧
    (h ≠ m.hash → lookupA td1.files f.path =
      some ⟨f.size, f.modified_time, h, now⟩) := by
  cases hp : processCurrentFiles now fs td.files [] with
  | error e => simp [check_files_changed, hp] at hok
  | ok res =>
    obtain ⟨ch0, tr⟩ := res
    simp [check_files_changed, hp, save_file_tracking] at hok
    obtain ⟨hch, htd1⟩ := hok
    have htr := processCurrentFiles_tracked now fs td.files [] ch0 tr f h m
      hf hnd hh (by simp) hm hp
    constructor
    · rw [← hch]
      exact htr.1
    · intro hne
      rw [← htd1, lookupA_filter_current,
        if_pos (List.any_eq_true.mpr ⟨f, hf, by simp⟩), htr.2, if_neg hne]
      rfl

/-- Witness for C7: a tracked file whose hash changed from `"h1"` to `"h2"`
while size and mtime stayed put is reported and its entry updated. -/
theorem C7_change_detection_iff_witness :
    ("a.txt" ∈ ["a.txt"] ↔ "h2" ≠ "h1") ∧
    ("h2" ≠ "h1" →
      lookupA [("a.txt", (⟨1, 2, "h2", "t1"⟩ : FileMeta))] "a.txt" =
        some ⟨1, 2, "h2", "t1"⟩) :=
  C7_change_detection_iff "t1" [⟨"a.txt", 1, 2, some "h2"⟩]
    ⟨[("a.txt", ⟨1, 2, "h1", "t0"⟩)], "t0"⟩ ⟨"a.txt", 1, 2, some "h2"⟩
    "h2" ⟨1, 2, "h1", "t0"⟩ ["a.txt"] ⟨[("a.txt", ⟨1, 2, "h2", "t1"⟩)], "t1"⟩
    (by decide) (by decide) rfl (by decide) (by rfl)

/-- **C6** — Scanning the same unchanged directory listing right after a
completed scan reports no changed files and rewrites the manifest with the
identical files map, only the `last_update` timestamp moving to the second
scan's clock (`last_processed` entries are not even touched, since unchanged
files take the no-update branch at `src/file_tracking.py:76-81`). -/
theorem C6_idempotent_rescan
    (now1 now2 : String) (fs : List FsFile) (td : TrackingData)
    (ch1 : List String) (td1 : TrackingData)
    (hnd : (fs.map FsFile.path).Nodup)
    (hr : ∀ f ∈ fs, f.hashResult ≠ none)
    (h1 : check_files_changed now1 fs td = .ok (ch1, td1)) :
    check_files_changed now2 fs td1 = .ok ([], ⟨td1.files, now2⟩) := by
  cases hp : processCurrentFiles now1 fs td.files [] with
  | error e => simp [check_files_changed, hp] at h1
  | ok res =>
    obtain ⟨ch0, tr⟩ := res
    simp [check_files_changed, hp, save_file_tracking] at h1
    obtain ⟨hch, htd1⟩ := h1
    have hfiles : td1.files = tr.filter fun e => fs.any fun f => f.path = e.1 := by
      rw [← htd1]
    have hmatch : ∀ f ∈ fs, ∃ h m, f.hashResult = some h ∧
        lookupA td1.files f.path = some m ∧ m.hash = h := by
      intro f hf
      cases hhf : f.hashResult with
      | none => exact absurd hhf (hr f hf)
      | some h =>
        obtain ⟨m', hm', hhash⟩ :=
          processCurrentFiles_hash now1 fs td.files [] ch0 tr f h hf hnd hhf hp
        refine ⟨h, m', rfl, ?_, hhash⟩
        rw [hfiles, lookupA_filter_current,
          if_pos (List.any_eq_true.mpr ⟨f, hf, by simp⟩), hm']
    have hproc2 := processCurrentFiles_nochange now2 fs td1.files [] hmatch
    have hkeep : (td1.files.filter fun e => fs.any fun f => f.path = e.1) = td1.files := by
      refine List.filter_eq_self.mpr ?_
      intro e he
      rw [hfiles] at he
      exact (List.mem_filter.mp he).2
    simp [check_files_changed, hproc2, save_file_tracking, hkeep]

/-- Witness for C6: a fresh one-file directory is ingested by a first scan,
and the immediate re-scan reports nothing and only re-stamps `last_update`. -/
theorem C6_idempotent_rescan_witness :
    check_files_changed "t2" [⟨"a.txt", 1, 2, some "h"⟩]
      ⟨[("a.txt", ⟨1, 2, "h", "t1"⟩)], "t1"⟩ =
      .ok ([], ⟨(⟨[("a.txt", ⟨1, 2, "h", "t1"⟩)], "t1"⟩ : TrackingData).files, "t2"⟩) :=
  C6_idempotent_rescan "t1" "t2" [⟨"a.txt", 1, 2, some "h"⟩] ⟨[], "t0"⟩
    ["a.txt"] ⟨[("a.txt", ⟨1, 2, "h", "t1"⟩)], "t1"⟩
    (by decide) (by decide) (by rfl)

end SimpleRAG
